import Mathlib

/-!
Verification development for the invoice ingestion and delivery pipeline
(`ocr_worker.py`, `sheets.py`, `webhook_app.py`).

The Python source is shallowly embedded: pure helpers become Lean functions
on `String`/`ℚ`, the filesystem and the external spreadsheet become explicit
state records, and each run of a stateful function additionally returns the
list of externally observable events (guard checks, external append attempts,
artifact writes, archive moves).  Machine floats are modelled by `ℚ`: every
numeric literal exercised here is a small terminating decimal, on which
Python `float` arithmetic is exact.
-/

namespace InvoiceMVP

/-! ## Python string primitives -/

/-- Whitespace stripped by Python `str.strip()` (ASCII whitespace; the inputs
in scope contain no further Unicode space characters). -/
def isPySpace (c : Char) : Bool :=
  c = ' ' || c = '\t' || c = '\n' || c = '\r' || c = '\x0b' || c = '\x0c'

/-- `str.strip()` on a character list: drop whitespace from both ends. -/
def pyStripList (l : List Char) : List Char :=
  ((l.dropWhile isPySpace).reverse.dropWhile isPySpace).reverse

/-- `str.strip()`. -/
def pyStrip (s : String) : String :=
  String.mk (pyStripList s.data)

/-- `str.replace(pat, rep)` on character lists: replace every non-overlapping
occurrence of `pat`, scanning left to right.  (Python's behaviour for an empty
pattern is not modelled; every pattern used by the source is non-empty.)
Recursion is by fuel so that the definition reduces in the kernel; each step
consumes at least one character, so `fuel = l.length` never runs out. -/
def replaceGo (p r : List Char) : Nat → List Char → List Char
  | _, [] => []
  | 0, l => l
  | fuel + 1, c :: cs =>
    if p ≠ [] ∧ p.isPrefixOf (c :: cs) then
      r ++ replaceGo p r fuel ((c :: cs).drop p.length)
    else
      c :: replaceGo p r fuel cs

def replaceList (p r l : List Char) : List Char :=
  replaceGo p r l.length l

/-- `str.replace(pat, rep)`. -/
def pyReplace (pat rep s : String) : String :=
  String.mk (replaceList pat.data rep.data s.data)

def digitVal (c : Char) : Nat := c.toNat - '0'.toNat

def digitsToNat (l : List Char) : Nat :=
  l.foldl (fun a c => 10 * a + digitVal c) 0

/-- Python `float(s)` on the decimal literals arising in this program:
optional surrounding whitespace, an optional sign, an integer part and an
optional fractional part (at least one digit overall).  Exponents, `inf`/`nan`
and digit underscores are not produced by any input in scope and are not
modelled.  The value is represented exactly as a rational. -/
def pyFloat (s : String) : Option ℚ :=
  let l := pyStripList s.data
  let sl : ℚ × List Char :=
    match l with
    | '-' :: t => (-1, t)
    | '+' :: t => (1, t)
    | _ => (1, l)
  let ip := sl.2.takeWhile Char.isDigit
  let rest := sl.2.dropWhile Char.isDigit
  match rest with
  | [] => if ip.isEmpty then none else some (sl.1 * (digitsToNat ip : ℚ))
  | '.' :: fp =>
    if fp.all Char.isDigit ∧ (ip ≠ [] ∨ fp ≠ []) then
      some (sl.1 * ((digitsToNat ip : ℚ) + (digitsToNat fp : ℚ) / (10 : ℚ) ^ fp.length))
    else none
  | _ => none

/-- `k` decimal digits of `m`, most significant first (zero padded). -/
def natPad (m : Nat) : Nat → List Char
  | 0 => []
  | k + 1 => natPad (m / 10) k ++ [Nat.digitChar (m % 10)]

/-- Number of fractional decimal digits of a terminating rational (bounded
search; every value in scope terminates well inside the bound). -/
def decDigitsLen (q : ℚ) : Nat :=
  (((List.range 60).find? fun k => (q * (10 : ℚ) ^ k).den = 1)).getD 0

/-- Python `str()`/`repr()` of a float, modelled for terminating decimals:
the sign, the integer part, a point and the minimal run of fractional digits
(`str(500.0) = "500.0"`, `str(500.5) = "500.5"`). -/
def pyStrNum (q : ℚ) : String :=
  let k := decDigitsLen q
  let n := (q * (10 : ℚ) ^ k).num.natAbs
  (if q < 0 then "-" else "") ++
    String.mk (natPad (n / 10 ^ k) (Nat.succ (Nat.log 10 (n / 10 ^ k)))) ++
    "." ++ (if k = 0 then "0" else String.mk (natPad (n % 10 ^ k) k))

/-! ## Python values and dictionaries -/

/-- The Python values flowing through the parsed-record dictionaries:
`None`, strings, and floats (modelled as exact rationals). -/
inductive PyVal
  | none
  | str (s : String)
  | num (q : ℚ)
deriving DecidableEq

/-- Python truthiness for the values above. -/
def PyVal.truthy : PyVal → Bool
  | .none => false
  | .str s => s ≠ ""
  | .num q => q ≠ 0

/-- Python `str(x)`. -/
def PyVal.pyStr : PyVal → String
  | .none => "None"
  | .str s => s
  | .num q => pyStrNum q

/-- Python `a or b`: `a` if truthy, else `b`. -/
def pyOr (a b : PyVal) : PyVal := if a.truthy then a else b

/-- A Python dict with string keys (association list; first binding wins,
matching insert-by-prepend below). -/
def PyDict := List (String × PyVal)

instance : DecidableEq PyDict := by unfold PyDict; infer_instance

/-- `d.get(k)`: `None` when the key is absent (the source code never
distinguishes an absent key from a stored `None`). -/
def dictGet (d : PyDict) (k : String) : PyVal :=
  (d.lookup k).getD PyVal.none

/-! ## `sheets.py` — delivery sink, guard and row building

The external spreadsheet and the local guard directory are modelled by
`SheetsState`; each run of `append_invoice_row` additionally returns the list
of observable events (`Ev`).  The unreliable external append is a parameter
`ok : Nat → Bool` giving the outcome of the k-th attempt; `getOk` gives the
outcome of the optional sheet-side read. -/

/-- `sheets._safe_filename` (lines 27–35): empty string maps to itself;
otherwise strip, replace every character outside `[A-Za-z0-9._-]` with `_`,
and truncate to 200 characters. -/
def isSafeChar (c : Char) : Bool :=
  ('A' ≤ c && c ≤ 'Z') || ('a' ≤ c && c ≤ 'z') || ('0' ≤ c && c ≤ '9') ||
    c = '.' || c = '_' || c = '-'

def _safe_filename (s : String) : String :=
  if s = "" then ""
  else
    String.mk
      (((pyStripList s.data).map fun c => if isSafeChar c then c else '_').take 200)

/-- State shared by all deliveries: the local guard files (sanitized invoice
identifiers, directory `data/appended`), the idempotency column of the
external sheet, and the rows acknowledged by the external append. -/
structure SheetsState where
  guards : List String
  sheetIds : List String
  rows : List (List PyVal)
deriving DecidableEq

/-- `sheets.already_appended` (lines 38–44). -/
def already_appended (invoice_no : String) (st : SheetsState) : Bool :=
  if invoice_no = "" then false
  else decide (_safe_filename invoice_no ∈ st.guards)

/-- `sheets.mark_appended` (lines 47–56): no-op on an empty identifier,
otherwise write the guard file for the sanitized identifier. -/
def mark_appended (invoice_no : String) (st : SheetsState) : SheetsState :=
  if invoice_no = "" then st
  else { st with guards := _safe_filename invoice_no :: st.guards }

/-- `sheets._normalize_total` (lines 101–110): `None` maps to `""`; otherwise
strip, remove thousands separators and currency markers, and either format
the parsed value with two decimals or return the cleaned string unchanged. -/
def cleanMoney (s : String) : String :=
  pyStrip (pyReplace "Rs" "" (pyReplace "Rs." "" (pyReplace "₹" "" (pyReplace "," "" s))))

/-- Round to the nearest integer, ties to even — the rounding applied by
Python's fixed-point float formatting. -/
def roundHalfEven (x : ℚ) : ℤ :=
  let f := ⌊x⌋
  let r := x - (f : ℚ)
  if r < 1 / 2 then f
  else if 1 / 2 < r then f + 1
  else if f % 2 = 0 then f else f + 1

/-- Python `f-string` formatting `f"{f:.2f}"`. -/
def formatTwoDec (q : ℚ) : String :=
  let c := roundHalfEven (q * 100)
  (if c < 0 then "-" else "") ++ toString (c.natAbs / 100) ++ "." ++
    String.mk [Nat.digitChar (c.natAbs % 100 / 10), Nat.digitChar (c.natAbs % 10)]

/-- The non-`None` branch of `_normalize_total`, on `str(total)`: strip,
clean, and either format the parse with two decimals or return the cleaned
string. -/
def _normalize_total_str (s0 : String) : String :=
  match pyFloat (cleanMoney (pyStrip s0)) with
  | some f => formatTwoDec f
  | Option.none => cleanMoney (pyStrip s0)

def _normalize_total (total : PyVal) : String :=
  match total with
  | .none => ""
  | t => _normalize_total_str t.pyStr

instance {ε α : Type} [DecidableEq ε] [DecidableEq α] : DecidableEq (Except ε α)
  | .ok a, .ok b =>
      if h : a = b then .isTrue (by rw [h]) else .isFalse (by intro hc; cases hc; exact h rfl)
  | .error a, .error b =>
      if h : a = b then .isTrue (by rw [h]) else .isFalse (by intro hc; cases hc; exact h rfl)
  | .ok _, .error _ => .isFalse (by intro hc; cases hc)
  | .error _, .ok _ => .isFalse (by intro hc; cases hc)

/-- Events observable during one `append_invoice_row` run. -/
inductive Ev
  | guardCheck (key : String)
  | sheetGet
  | extAppend (row : List PyVal) (ok : Bool)
  | guardWrite (key : String)
deriving DecidableEq

def Ev.isExt : Ev → Bool
  | .extAppend _ _ => true
  | _ => false

def Ev.isGuardEv : Ev → Bool
  | .guardCheck _ => true
  | .guardWrite _ => true
  | _ => false

/-- Lines 121–122: the invoice identifier string of a parsed record,
`str(parsed.get("invoice_number") or parsed.get("inv_no") or
parsed.get("invoice_no") or "").strip()`. -/
def invoiceStr (p : PyDict) : String :=
  pyStrip (pyOr (dictGet p "invoice_number")
      (pyOr (dictGet p "inv_no") (pyOr (dictGet p "invoice_no") (.str "")))).pyStr

/-- Lines 147–154: the row handed to the external append. -/
def buildRow (p : PyDict) : List PyVal :=
  let date := pyOr (dictGet p "date") (pyOr (dictGet p "invoice_date") (.str ""))
  let vendor := pyOr (dictGet p "vendor")
      (pyOr (dictGet p "supplier") (pyOr (dictGet p "seller") (.str "")))
  let total := _normalize_total
      (pyOr (dictGet p "total")
        (pyOr (dictGet p "grand_total") (pyOr (dictGet p "amount") (.str ""))))
  let currency := pyOr (dictGet p "currency") (.str "")
  let snippet := String.mk ((pyOr (dictGet p "raw_text") (.str "")).pyStr.data.take 500)
  [.str (invoiceStr p), date, vendor, .str total, currency, .str snippet]

/-- The retry loop, lines 161–187, one step per attempt: attempt `a` succeeds
iff `ok a`; on failure, `fuel` is the number of failures still retried, so
`fuel = 0` is exactly the code's give-up condition `attempt > retry` when
started with `a = 1`, `fuel = retry`.  Returns the success flag, the number of
the last attempt made, and the external-append events in order. -/
def attemptLoop (ok : Nat → Bool) (row : List PyVal) : Nat → Nat → Bool × Nat × List Ev
  | a, fuel =>
    if ok a then (true, a, [.extAppend row true])
    else
      match fuel with
      | 0 => (false, a, [.extAppend row false])
      | fuel + 1 =>
          let r := attemptLoop ok row (a + 1) fuel
          (r.1, r.2.1, .extAppend row false :: r.2.2)

/-- The retry loop of `append_invoice_row` started at attempt 1 with ceiling
`retry`. -/
def attemptRun (ok : Nat → Bool) (row : List PyVal) (retry : Nat) :
    Bool × Nat × List Ev :=
  attemptLoop ok row 1 retry

/-- The tail of `append_invoice_row` from line 147 on: build the row, run the
retry loop; on success record the acknowledged row on the external sheet and
write the guard (no-op for an empty identifier), on exhaustion raise. -/
def appendFrom (ok : Nat → Bool) (p : PyDict) (retry : Nat) (invoice_no_str : String)
    (st : SheetsState) (tr : List Ev) : Except Unit Bool × SheetsState × List Ev :=
  let row := buildRow p
  let r := attemptRun ok row retry
  if r.1 then
    let st1 : SheetsState :=
      { st with rows := row :: st.rows, sheetIds := invoice_no_str :: st.sheetIds }
    (.ok true, mark_appended invoice_no_str st1,
      tr ++ r.2.2 ++ (if invoice_no_str = "" then [] else [.guardWrite invoice_no_str]))
  else (.error (), st, tr ++ r.2.2)

/-- `sheets.append_invoice_row` (lines 113–187).  The guard-write failure that
the code catches at lines 175–178 is not modelled (the local write is taken to
succeed); a lost mark only weakens deduplication and no claim depends on it. -/
def append_invoice_row (ok : Nat → Bool) (getOk : Bool) (p : PyDict)
    (retry : Nat) (check_duplicate_sheet : Bool) (st : SheetsState) :
    Except Unit Bool × SheetsState × List Ev :=
  let invoice_no_str := invoiceStr p
  if invoice_no_str = "" then
    appendFrom ok p retry "" st []
  else if already_appended invoice_no_str st then
    (.ok false, st, [.guardCheck invoice_no_str])
  else if check_duplicate_sheet then
    if getOk then
      if invoice_no_str ∈ st.sheetIds then
        (.ok false, mark_appended invoice_no_str st,
          [.guardCheck invoice_no_str, .sheetGet, .guardWrite invoice_no_str])
      else appendFrom ok p retry invoice_no_str st [.guardCheck invoice_no_str, .sheetGet]
    else
      -- the sheet-side read raised; the exception is caught and the append
      -- proceeds anyway (lines 144–145)
      appendFrom ok p retry invoice_no_str st [.guardCheck invoice_no_str, .sheetGet]
  else appendFrom ok p retry invoice_no_str st [.guardCheck invoice_no_str]

/-! ## `ocr_worker.py` — pipeline orchestrator

The drop directory, the archive, and the artifact directories are modelled by
`PState`.  The external capabilities (OCR engine, field extractor, sheet
appends) are parameters bundled in `Caps`; artifact writes through the atomic
tempfile-and-rename primitive are modelled as succeeding. -/

/-- `ocr_worker.normalize_money` (lines 164–172): `None` maps to `None`;
otherwise clean the string form and parse, yielding `None` on failure.  The
clean-up chain is character-for-character the one in `_normalize_total`. -/
def normalize_money (x : PyVal) : Option ℚ :=
  match x with
  | .none => Option.none
  | v => pyFloat (cleanMoney v.pyStr)

/-- `ocr_worker.safe_get` (lines 175–180): first truthy value among the keys,
else `None`. -/
def safe_get (d : PyDict) : List String → PyVal
  | [] => .none
  | k :: ks => let v := dictGet d k; if v.truthy then v else safe_get d ks

/-- Recognized image extensions (line 55). -/
def IMAGE_EXTS : List String := [".jpg", ".jpeg", ".png", ".webp", ".tif", ".tiff", ".bmp"]

/-- Recognized PDF extensions (line 56). -/
def PDF_EXTS : List String := [".pdf"]

/-- A file in the drop directory: `pathlib` stem, suffix (with the dot) and
modification time. -/
structure MediaFile where
  stem : String
  suffix : String
  mtime : Nat
deriving DecidableEq

def MediaFile.name (f : MediaFile) : String := f.stem ++ f.suffix

/-- The external capabilities consumed by `process_file`, plus the
import-availability flags of lines 36–45. -/
structure Caps where
  ocrImage : MediaFile → String
  ocrPdf : MediaFile → Except Unit String
  extract : String → Except Unit PyDict
  appendOk : Nat → Bool
  getOk : Bool
  extractAvailable : Bool
  sheetsAvailable : Bool

/-- The filesystem state seen by the pipeline: drop directory contents,
archived file names (`data/media/processed`), OCR artifacts keyed by stem
(`data/ocr/<stem>.txt`), parsed records (`data/parsed/<stem>.json`), error
artifacts (`data/ocr/<stem>.err.txt`), saved failed appends
(`data/failed_appends/<stem>.json`), the delivery state, and the clock used
for collision suffixes. -/
structure PState where
  media : List MediaFile
  processedNames : List String
  ocrTexts : List (String × String)
  parsedFiles : List (String × PyDict)
  errFiles : List String
  failedAppends : List String
  sheets : SheetsState
  now : Nat
deriving DecidableEq

/-- Events observable during one `process_file` run. -/
inductive PEv
  | ocrCall
  | writeOcr (stem : String)
  | writeParsed (stem : String)
  | deliver (e : Ev)
  | writeFailed (stem : String)
  | writeErr (stem : String)
  | archive (name : String)
deriving DecidableEq

def PEv.isWriteOcr : PEv → Bool
  | .writeOcr _ => true
  | _ => false

def PEv.isOcrCall : PEv → Bool
  | .ocrCall => true
  | _ => false

def PEv.isExtDeliver : PEv → Bool
  | .deliver e => e.isExt
  | _ => false

/-- `str.lower()` on the ASCII file suffixes in scope. -/
def pyLowerChar (c : Char) : Char :=
  if 'A' ≤ c && c ≤ 'Z' then Char.ofNat (c.toNat + 32) else c

def pyLower (s : String) : String := String.mk (s.data.map pyLowerChar)

/-- `ocr_worker.is_processed` (lines 81–85): an OCR text artifact exists for
the file's stem. -/
def is_processed (f : MediaFile) (st : PState) : Bool :=
  (st.ocrTexts.lookup f.stem).isSome

/-- `ocr_worker.write_text_file` (lines 88–96), with the atomic write taken
to succeed. -/
def write_text_file (f : MediaFile) (text : String) (st : PState) : PState :=
  { st with ocrTexts := (f.stem, text) :: st.ocrTexts }

/-- The archive name chosen by `move_to_processed` (lines 152–158): on a name
collision, suffix the stem with the current timestamp. -/
def archiveName (f : MediaFile) (names : List String) (now : Nat) : String :=
  if f.name ∈ names then f.stem ++ "_" ++ toString now ++ f.suffix
  else f.name

/-- `ocr_worker.move_to_processed` (lines 152–161). -/
def move_to_processed (f : MediaFile) (st : PState) : PState :=
  { st with media := st.media.erase f,
            processedNames := archiveName f st.processedNames st.now :: st.processedNames }

/-- The extractor output used by `process_file`: `extract_fields(text)`, with
a raised exception absorbed into the empty field set (lines 209–213). -/
def extractedFields (caps : Caps) (text : String) : PyDict :=
  match caps.extract text with
  | .ok d => d
  | .error _ => []

/-- The normalized parsed dict built at lines 216–236.  The nested `_meta`
entry (artifact path and timestamp) is omitted: no code in scope reads it
back. -/
def buildParsed (f : MediaFile) (text : String) (fields : PyDict) : PyDict :=
  let invoice_no := safe_get fields ["invoice_number", "inv_no", "invoice_no"]
  let total_raw := safe_get fields ["total", "grand_total", "amount", "net_total"]
  let total_val := normalize_money total_raw
  let supplier := safe_get fields ["supplier", "vendor", "seller", "bill_from"]
  let date := safe_get fields ["date", "invoice_date", "bill_date"]
  let gst := safe_get fields ["gst", "tax"]
  [("file", .str f.name), ("invoice_number", invoice_no), ("date", date),
   ("supplier", supplier), ("total_raw", total_raw),
   ("total", match total_val with | some q => .num q | Option.none => .none),
   ("gst", gst), ("raw_text", .str text)]

/-- Lines 204–268: extraction, parsed-record write and delivery.  Extraction
failure degrades to empty fields; a delivery exception is caught, the record
is saved under `failed_appends`, and processing continues. -/
def parseAndDeliver (caps : Caps) (f : MediaFile) (text : String) (st : PState) :
    PState × List PEv :=
  if caps.extractAvailable = false then (st, [])
  else
    let fields := extractedFields caps text
    let parsed := buildParsed f text fields
    let st1 := { st with parsedFiles := (f.stem, parsed) :: st.parsedFiles }
    if caps.sheetsAvailable = false then (st1, [.writeParsed f.stem])
    else
      let r := append_invoice_row caps.appendOk caps.getOk parsed 3 false st1.sheets
      let dtr := r.2.2.map PEv.deliver
      match r.1 with
      | .ok _ => ({ st1 with sheets := r.2.1 }, .writeParsed f.stem :: dtr)
      | .error _ =>
          ({ st1 with sheets := r.2.1, failedAppends := f.stem :: st1.failedAppends },
           .writeParsed f.stem :: dtr ++ [.writeFailed f.stem])

/-- `ocr_worker.process_file` (lines 183–285).  The only exception that can
escape to the top-level handler in this model is a PDF-conversion failure
(`ocr_pdf` re-raises it, line 137); `ocr_image` absorbs its errors into an
empty text (lines 119–124), and the nested handlers absorb extraction and
delivery failures.  The top-level handler writes `<stem>.err.txt` and leaves
the file in the drop directory. -/
def process_file (caps : Caps) (f : MediaFile) (st : PState) : PState × List PEv :=
  if is_processed f st then (st, [])
  else
    let suffix := pyLower f.suffix
    if suffix ∈ IMAGE_EXTS then
      let text := caps.ocrImage f
      let st1 := write_text_file f text st
      let r := parseAndDeliver caps f text st1
      (move_to_processed f r.1,
       .ocrCall :: .writeOcr f.stem :: r.2 ++ [.archive (archiveName f r.1.processedNames r.1.now)])
    else if suffix ∈ PDF_EXTS then
      match caps.ocrPdf f with
      | .error _ =>
          ({ st with errFiles := f.stem :: st.errFiles }, [.ocrCall, .writeErr f.stem])
      | .ok text =>
          let st1 := write_text_file f text st
          let r := parseAndDeliver caps f text st1
          (move_to_processed f r.1,
           .ocrCall :: .writeOcr f.stem :: r.2 ++ [.archive (archiveName f r.1.processedNames r.1.now)])
    else (st, [])

/-- `ocr_worker.list_media_files` (lines 288–298): the drop-directory files
sorted ascending by modification time (Python's stable sort; `mergeSort` is
stable as well). -/
def list_media_files (st : PState) : List MediaFile :=
  st.media.mergeSort (fun a b => a.mtime ≤ b.mtime)

/-! ## Interleaved deliveries

`append_invoice_row` performs its guard check, its external append and its
guard write as three separate filesystem/network operations with no lock in
between.  For two concurrent deliveries of the same non-empty invoice
identifier, each delivery is the sequence of those three atomic actions taken
from the code path in which the guard is respected; a scheduler interleaves
the two sequences over the shared guard-and-ledger state. -/

inductive DStep
  | check
  | append
  | mark
deriving DecidableEq

/-- One delivery for a fixed non-empty invoice identifier: check the guard
(line 126; return without appending if present), perform the external append
(line 165, taken to succeed), write the guard (line 176). -/
def deliverySteps : List DStep := [.check, .append, .mark]

/-- Shared state for the interleaving: whether the guard for the identifier
exists, and how many external appends have been observed. -/
structure CoState where
  guard : Bool
  appends : Nat
deriving DecidableEq

/-- Execute the next atomic action of one delivery; a `check` that finds the
guard terminates that delivery (it returns `False` and performs no append). -/
def stepD (s : CoState) : List DStep → CoState × List DStep
  | [] => (s, [])
  | .check :: rest => if s.guard then (s, []) else (s, rest)
  | .append :: rest => ({ s with appends := s.appends + 1 }, rest)
  | .mark :: rest => ({ s with guard := true }, rest)

/-- Run two deliveries under a schedule: `true` steps the first delivery,
`false` the second. -/
def runSched (s : CoState) (t1 t2 : List DStep) : List Bool → CoState × List DStep × List DStep
  | [] => (s, t1, t2)
  | true :: rest => let r := stepD s t1; runSched r.1 r.2 t2 rest
  | false :: rest => let r := stepD s t2; runSched r.1 t1 r.2 rest

/-! ## Helper lemmas about the retry loop -/

theorem attemptLoop_allFail (ok : Nat → Bool) (row : List PyVal)
    (hok : ∀ k, ok k = false) :
    ∀ fuel a, attemptLoop ok row a fuel =
      (false, a + fuel, List.replicate (fuel + 1) (.extAppend row false)) := by
  intro fuel
  induction fuel with
  | zero => intro a; rw [attemptLoop]; simp [hok a]
  | succ fuel ih =>
      intro a
      rw [attemptLoop]
      simp only [hok a, Bool.false_eq_true, if_false]
      rw [ih (a + 1)]
      simp [List.replicate_succ]
      omega

theorem attemptRun_allFail (ok : Nat → Bool) (row : List PyVal) (retry : Nat)
    (hok : ∀ k, ok k = false) :
    attemptRun ok row retry =
      (false, retry + 1, List.replicate (retry + 1) (.extAppend row false)) := by
  rw [attemptRun, attemptLoop_allFail ok row hok retry 1]
  simp [Nat.add_comm]

theorem attemptRun_first_ok (ok : Nat → Bool) (row : List PyVal) (retry : Nat)
    (h : ok 1 = true) :
    attemptRun ok row retry = (true, 1, [.extAppend row true]) := by
  rw [attemptRun, attemptLoop.eq_def]; simp [h]

theorem attemptLoop_mem_ext (ok : Nat → Bool) (row : List PyVal) :
    ∀ fuel a, ∀ e ∈ (attemptLoop ok row a fuel).2.2, ∃ b, e = .extAppend row b := by
  intro fuel
  induction fuel with
  | zero =>
      intro a e he
      rw [attemptLoop.eq_def] at he
      by_cases h2 : ok a = true <;> simp [h2] at he <;> exact ⟨_, he⟩
  | succ fuel ih =>
      intro a e he
      rw [attemptLoop] at he
      by_cases h2 : ok a = true
      · simp [h2] at he; exact ⟨_, he⟩
      · simp only [h2, Bool.false_eq_true, if_false, List.mem_cons] at he
        rcases he with he | he
        · exact ⟨_, he⟩
        · exact ih (a + 1) e he

theorem attemptRun_mem_ext (ok : Nat → Bool) (row : List PyVal) (retry : Nat) :
    ∀ e ∈ (attemptRun ok row retry).2.2, ∃ b, e = .extAppend row b :=
  attemptLoop_mem_ext ok row retry 1

theorem attemptLoop_success_mem (ok : Nat → Bool) (row : List PyVal) :
    ∀ fuel a, (attemptLoop ok row a fuel).1 = true →
      Ev.extAppend row true ∈ (attemptLoop ok row a fuel).2.2 := by
  intro fuel
  induction fuel with
  | zero =>
      intro a hs
      rw [attemptLoop.eq_def] at hs ⊢
      by_cases h2 : ok a = true <;> simp [h2] at hs ⊢
  | succ fuel ih =>
      intro a hs
      rw [attemptLoop] at hs ⊢
      by_cases h2 : ok a = true
      · simp [h2]
      · simp only [h2, Bool.false_eq_true, if_false, List.mem_cons] at hs ⊢
        exact Or.inr (ih (a + 1) hs)

theorem attemptRun_success_mem (ok : Nat → Bool) (row : List PyVal) (retry : Nat)
    (hs : (attemptRun ok row retry).1 = true) :
    Ev.extAppend row true ∈ (attemptRun ok row retry).2.2 :=
  attemptLoop_success_mem ok row retry 1 hs

theorem attemptRun_one_le_count (ok : Nat → Bool) (row : List PyVal) (retry : Nat) :
    1 ≤ ((attemptRun ok row retry).2.2.countP Ev.isExt) := by
  rw [attemptRun, attemptLoop.eq_def]
  by_cases h2 : ok 1 = true
  · simp [h2, Ev.isExt]
  · cases retry <;> simp [h2, List.countP_cons, Ev.isExt]

/-! ## C6 — money normalization -/

/-- Capabilities for a run whose extractor returns a raw total of `"N/A"`. -/
def c6Caps : Caps :=
  { ocrImage := fun _ => "RAW OCR TEXT"
    ocrPdf := fun _ => .ok ""
    extract := fun _ => .ok [("total", .str "N/A")]
    appendOk := fun _ => true
    getOk := true
    extractAvailable := true
    sheetsAvailable := true }

def c6File : MediaFile := ⟨"doc6", ".jpg", 0⟩

def c6State : PState := ⟨[c6File], [], [], [], [], [], ⟨[], [], []⟩, 7⟩

/-- C6: money normalization maps `"₹12,345.00"` to `12345.00`, `"Rs. 500"` to
`500.00` and `"1,000"` to `1000.00`; `"N/A"` yields `None`, and the parsed
record written by the pipeline for such an input keeps the raw string in its
`total_raw` field while its `total` field is `None`. -/
theorem money_normalization :
    normalize_money (.str "₹12,345.00") = some (12345 : ℚ) ∧
    normalize_money (.str "Rs. 500") = some (500 : ℚ) ∧
    normalize_money (.str "1,000") = some (1000 : ℚ) ∧
    normalize_money (.str "N/A") = Option.none ∧
    dictGet (((process_file c6Caps c6File c6State).1.parsedFiles.lookup "doc6").getD [])
        "total_raw" = .str "N/A" ∧
    dictGet (((process_file c6Caps c6File c6State).1.parsedFiles.lookup "doc6").getD [])
        "total" = .none := by
  refine ⟨?_, ?_, ?_, rfl, by decide, by decide⟩
  · show some ((1 : ℚ) * ((digitsToNat ['1', '2', '3', '4', '5'] : ℚ) +
        (digitsToNat ['0', '0'] : ℚ) / (10 : ℚ) ^ (['0', '0'] : List Char).length)) =
      some (12345 : ℚ)
    norm_num [show digitsToNat ['1', '2', '3', '4', '5'] = 12345 from rfl,
      show digitsToNat ['0', '0'] = 0 from rfl]
  · show some ((1 : ℚ) * (digitsToNat ['5', '0', '0'] : ℚ)) = some (500 : ℚ)
    norm_num [show digitsToNat ['5', '0', '0'] = 500 from rfl]
  · show some ((1 : ℚ) * (digitsToNat ['1', '0', '0', '0'] : ℚ)) = some (1000 : ℚ)
    norm_num [show digitsToNat ['1', '0', '0', '0'] = 1000 from rfl]

/-! ## C4 — retry bound of the delivery sink -/

/-- Shared evaluation of `append_invoice_row` when every attempt fails and
the guard is not yet present: the call raises, the state is untouched, and
the trace is the guard check (for a non-empty identifier) followed by
`retry + 1` failed append attempts. -/
theorem append_invoice_row_allFail (getOk : Bool) (p : PyDict) (retry : Nat)
    (st : SheetsState) (h : already_appended (invoiceStr p) st = false) :
    append_invoice_row (fun _ => false) getOk p retry false st =
      (.error (), st,
        (if invoiceStr p = "" then [] else [.guardCheck (invoiceStr p)]) ++
          List.replicate (retry + 1) (.extAppend (buildRow p) false)) := by
  have hrun := attemptRun_allFail (fun _ => false) (buildRow p) retry (fun _ => rfl)
  by_cases he : invoiceStr p = ""
  · simp [append_invoice_row, he, appendFrom, hrun]
  · simp [append_invoice_row, he, h, appendFrom, hrun]

/-- C4: when every external append attempt raises and the local guard for the
record's identifier is not yet present, `append_invoice_row` makes exactly
`retry + 1` attempts, raises to the caller, and leaves the delivery state
(in particular the guard directory) untouched. -/
theorem delivery_retry_bound (getOk : Bool) (p : PyDict) (retry : Nat) (st : SheetsState)
    (h : already_appended (invoiceStr p) st = false) :
    append_invoice_row (fun _ => false) getOk p retry false st =
      (.error (), st,
        (if invoiceStr p = "" then [] else [.guardCheck (invoiceStr p)]) ++
          List.replicate (retry + 1) (.extAppend (buildRow p) false)) ∧
    ((append_invoice_row (fun _ => false) getOk p retry false st).2.2.countP Ev.isExt
        = retry + 1) := by
  have hmain := append_invoice_row_allFail getOk p retry st h
  refine ⟨hmain, ?_⟩
  rw [hmain]
  by_cases he : invoiceStr p = "" <;>
    simp [he, List.countP_append, List.countP_eq_length.mpr, Ev.isExt,
      List.countP_replicate]

/-- Witness for C4 at the default ceiling: a record with identifier `INV-1`,
an empty guard directory, and a sink that always fails yields exactly four
attempts, a raised error and no guard. -/
theorem delivery_retry_bound_witness :
    already_appended (invoiceStr [("invoice_number", PyVal.str "INV-1")]) ⟨[], [], []⟩ = false ∧
    (append_invoice_row (fun _ => false) true [("invoice_number", PyVal.str "INV-1")] 3 false
        ⟨[], [], []⟩).2.2.countP Ev.isExt = 3 + 1 :=
  ⟨by decide,
    (delivery_retry_bound true [("invoice_number", PyVal.str "INV-1")] 3 ⟨[], [], []⟩
      (by decide)).2⟩

/-! ## C8 — the guard-key sanitizer -/

theorem safe_not_space (c : Char) (h : isSafeChar c = true) : isPySpace c = false := by
  by_contra hn
  have hsp : isPySpace c = true := by
    cases hx : isPySpace c
    · exact absurd hx hn
    · rfl
  simp only [isPySpace, Bool.or_eq_true, decide_eq_true_eq] at hsp
  rcases hsp with ((((h1 | h1) | h1) | h1) | h1) | h1 <;> subst h1 <;> exact absurd h (by decide)

theorem dropWhile_eq_self_of_head (l : List Char)
    (h : ∀ c ∈ l, isPySpace c = false) : l.dropWhile isPySpace = l := by
  cases l with
  | nil => rfl
  | cons c cs => simp [List.dropWhile_cons, h c (List.mem_cons_self c cs)]

theorem pyStripList_of_safe (l : List Char)
    (h : ∀ c ∈ l, isSafeChar c = true) : pyStripList l = l := by
  have hns : ∀ c ∈ l, isPySpace c = false := fun c hc => safe_not_space c (h c hc)
  unfold pyStripList
  rw [dropWhile_eq_self_of_head l hns,
    dropWhile_eq_self_of_head l.reverse (fun c hc => hns c (List.mem_reverse.mp hc)),
    List.reverse_reverse]

theorem map_sanitize_of_safe (l : List Char)
    (h : ∀ c ∈ l, isSafeChar c = true) :
    (l.map fun c => if isSafeChar c then c else '_') = l := by
  induction l with
  | nil => rfl
  | cons c cs ih =>
      simp only [List.map_cons, if_pos (h c (List.mem_cons_self c cs))]
      rw [ih fun x hx => h x (List.mem_cons_of_mem c hx)]

theorem stringMk_data (s : String) : String.mk s.data = s := rfl

theorem stringMk_length (l : List Char) : (String.mk l).length = l.length := rfl

theorem safe_filename_chars (s : String) :
    ∀ c ∈ (_safe_filename s).data, isSafeChar c = true := by
  intro c hc
  unfold _safe_filename at hc
  by_cases he : s = ""
  · simp [he] at hc
  · simp only [he, if_false] at hc
    have hc' := List.take_subset 200 _ hc
    obtain ⟨x, _, hx⟩ := List.mem_map.mp hc'
    by_cases hsafe : isSafeChar x = true
    · rw [← hx]; simp [hsafe]
    · rw [← hx, if_neg hsafe]; decide

/-- C8: the guard-key sanitizer is idempotent, and its output uses only
characters in `[A-Za-z0-9._-]` and has length at most 200. -/
theorem safe_filename_idempotent (s : String) :
    _safe_filename (_safe_filename s) = _safe_filename s ∧
    (∀ c ∈ (_safe_filename s).data, isSafeChar c = true) ∧
    (_safe_filename s).length ≤ 200 := by
  have hchars := safe_filename_chars s
  have hlen : (_safe_filename s).length ≤ 200 := by
    unfold _safe_filename
    by_cases he : s = ""
    · simp [he, String.length]
    · simp only [he, if_false, stringMk_length]
      rw [List.length_take]
      exact min_le_left _ _
  refine ⟨?_, hchars, hlen⟩
  have heq : ∀ t : String, t ≠ "" →
      _safe_filename t =
        String.mk (((pyStripList t.data).map fun c => if isSafeChar c then c else '_').take 200) := by
    intro t ht; unfold _safe_filename; rw [if_neg ht]
  by_cases h2 : _safe_filename s = ""
  · rw [h2]; rfl
  · have hlen' : (_safe_filename s).data.length ≤ 200 := hlen
    rw [heq _ h2, pyStripList_of_safe _ hchars, map_sanitize_of_safe _ hchars,
      List.take_of_length_le hlen', stringMk_data]

/-- Witness for C8 at a concrete messy identifier. -/
theorem safe_filename_idempotent_witness :
    _safe_filename (_safe_filename "  IN V/01!  ") = _safe_filename "  IN V/01!  " ∧
    ('I' ∈ (_safe_filename "  IN V/01!  ").data ∧ isSafeChar 'I' = true) ∧
    (_safe_filename "  IN V/01!  ").length ≤ 200 :=
  ⟨(safe_filename_idempotent "  IN V/01!  ").1,
    ⟨by decide, (safe_filename_idempotent "  IN V/01!  ").2.1 'I' (by decide)⟩,
    (safe_filename_idempotent "  IN V/01!  ").2.2⟩

/-! ## C9 — records without an invoice identifier -/

theorem attemptRun_countP_guardEv (ok : Nat → Bool) (row : List PyVal) (retry : Nat) :
    (attemptRun ok row retry).2.2.countP Ev.isGuardEv = 0 := by
  apply List.countP_eq_zero.mpr
  intro e he
  obtain ⟨b, rfl⟩ := attemptRun_mem_ext ok row retry e he
  simp [Ev.isGuardEv]

/-- C9: when the parsed record's invoice identifier is missing or empty,
`append_invoice_row` never consults the Delivery Guard (no guard event at
all), always attempts the external append, returns `True` on a successful
append, and leaves the guard directory unchanged — no deduplication. -/
theorem delivery_without_identifier (ok : Nat → Bool) (g : Bool) (p : PyDict)
    (retry : Nat) (dup : Bool) (st : SheetsState) (h : invoiceStr p = "") :
    (append_invoice_row ok g p retry dup st).2.1.guards = st.guards ∧
    (append_invoice_row ok g p retry dup st).2.2.countP Ev.isGuardEv = 0 ∧
    1 ≤ (append_invoice_row ok g p retry dup st).2.2.countP Ev.isExt ∧
    (ok 1 = true → (append_invoice_row ok g p retry dup st).1 = .ok true) := by
  have hred : append_invoice_row ok g p retry dup st = appendFrom ok p retry "" st [] := by
    simp [append_invoice_row, h]
  rw [hred]
  have hex : ∃ a ∈ (attemptRun ok (buildRow p) retry).2.2, a.isExt = true :=
    List.countP_pos_iff.mp (attemptRun_one_le_count ok (buildRow p) retry)
  by_cases hs : (attemptRun ok (buildRow p) retry).1 = true
  · refine ⟨?_, ?_, ?_, fun _ => ?_⟩ <;>
      simp [appendFrom, hs, mark_appended, attemptRun_countP_guardEv, hex]
  · have hs' : (attemptRun ok (buildRow p) retry).1 = false := by
      cases hx : (attemptRun ok (buildRow p) retry).1
      · rfl
      · exact absurd hx hs
    refine ⟨?_, ?_, ?_, fun h1 => ?_⟩
    · simp [appendFrom, hs']
    · simp [appendFrom, hs', attemptRun_countP_guardEv]
    · simp [appendFrom, hs', hex]
    · rw [attemptRun_first_ok ok (buildRow p) retry h1] at hs'
      simp at hs'

/-- Witness for C9: a record with no identifier fields at all, a reliable
sink, and a non-empty guard directory. -/
theorem delivery_without_identifier_witness :
    invoiceStr [] = "" ∧
    ((append_invoice_row (fun _ => true) true [] 3 false ⟨["G"], [], []⟩).2.1.guards = ["G"] ∧
     (append_invoice_row (fun _ => true) true [] 3 false ⟨["G"], [], []⟩).2.2.countP
        Ev.isGuardEv = 0 ∧
     1 ≤ (append_invoice_row (fun _ => true) true [] 3 false ⟨["G"], [], []⟩).2.2.countP
        Ev.isExt ∧
     (true = true →
       (append_invoice_row (fun _ => true) true [] 3 false ⟨["G"], [], []⟩).1 = .ok true)) :=
  ⟨by decide, delivery_without_identifier (fun _ => true) true [] 3 false ⟨["G"], [], []⟩
      (by decide)⟩

/-! ## C3 — guard written only after an acknowledged append -/

theorem appendFrom_guards (ok : Nat → Bool) (p : PyDict) (retry : Nat)
    (inv : String) (st : SheetsState) (tr : List Ev) :
    ∀ key ∈ (appendFrom ok p retry inv st tr).2.1.guards,
      key ∈ st.guards ∨
        Ev.extAppend (buildRow p) true ∈ (appendFrom ok p retry inv st tr).2.2 := by
  intro key hk
  by_cases hs : (attemptRun ok (buildRow p) retry).1 = true
  · have hmem := attemptRun_success_mem ok (buildRow p) retry hs
    by_cases hi : inv = ""
    · simp [appendFrom, hs, hi, mark_appended] at hk
      exact Or.inl hk
    · simp [appendFrom, hs, hi, mark_appended] at hk ⊢
      rcases hk with hk | hk
      · exact Or.inr (by simp [hmem])
      · exact Or.inl hk
  · have hs' : (attemptRun ok (buildRow p) retry).1 = false := by
      cases hx : (attemptRun ok (buildRow p) retry).1
      · rfl
      · exact absurd hx hs
    simp [appendFrom, hs'] at hk
    exact Or.inl hk

theorem appendFrom_head (ok : Nat → Bool) (p : PyDict) (retry : Nat)
    (inv : String) (st : SheetsState) (e : Ev) (tr : List Ev) :
    (appendFrom ok p retry inv st (e :: tr)).2.2.head? = some e := by
  by_cases hs : (attemptRun ok (buildRow p) retry).1 = true
  · simp [appendFrom, hs]
  · have hs' : (attemptRun ok (buildRow p) retry).1 = false := by
      cases hx : (attemptRun ok (buildRow p) retry).1
      · rfl
      · exact absurd hx hs
    simp [appendFrom, hs']

/-- C3: in every execution of `append_invoice_row`, a guard present afterwards
was either already present beforehand, or the identifier was already recorded
on the external sheet's idempotency column, or an external append was
acknowledged during this very execution — a guard is never written ahead of a
confirmed append.  Moreover, for a non-empty identifier the guard check is the
first observable action, before any append attempt. -/
theorem guard_only_after_acknowledged_append (ok : Nat → Bool) (getOk : Bool)
    (p : PyDict) (retry : Nat) (dup : Bool) (st : SheetsState) :
    (∀ key ∈ (append_invoice_row ok getOk p retry dup st).2.1.guards,
      key ∈ st.guards ∨ invoiceStr p ∈ st.sheetIds ∨
        Ev.extAppend (buildRow p) true ∈ (append_invoice_row ok getOk p retry dup st).2.2) ∧
    (invoiceStr p ≠ "" →
      (append_invoice_row ok getOk p retry dup st).2.2.head? =
        some (.guardCheck (invoiceStr p))) := by
  by_cases h0 : invoiceStr p = ""
  · have hred : append_invoice_row ok getOk p retry dup st = appendFrom ok p retry "" st [] := by
      simp [append_invoice_row, h0]
    rw [hred]
    refine ⟨fun key hk => ?_, fun hne => absurd h0 hne⟩
    rcases appendFrom_guards ok p retry "" st [] key hk with hk' | hk'
    · exact Or.inl hk'
    · exact Or.inr (Or.inr hk')
  · by_cases h1 : already_appended (invoiceStr p) st = true
    · have hred : append_invoice_row ok getOk p retry dup st =
          (.ok false, st, [.guardCheck (invoiceStr p)]) := by
        simp [append_invoice_row, h0, h1]
      rw [hred]
      exact ⟨fun key hk => Or.inl hk, fun _ => rfl⟩
    · have h1' : already_appended (invoiceStr p) st = false := by
        cases hx : already_appended (invoiceStr p) st
        · rfl
        · exact absurd hx h1
      by_cases h2 : dup = true ∧ getOk = true ∧ invoiceStr p ∈ st.sheetIds
      · have hred : append_invoice_row ok getOk p retry dup st =
            (.ok false, mark_appended (invoiceStr p) st,
              [.guardCheck (invoiceStr p), .sheetGet, .guardWrite (invoiceStr p)]) := by
          obtain ⟨hd, hg, hm⟩ := h2
          simp [append_invoice_row, h0, h1', hd, hg, hm]
        rw [hred]
        refine ⟨fun key hk => ?_, fun _ => rfl⟩
        simp [mark_appended, h0] at hk
        rcases hk with hk | hk
        · exact Or.inr (Or.inl h2.2.2)
        · exact Or.inl hk
      · -- the delivery proceeds to the external append
        have hred : ∃ tr0 : List Ev,
            append_invoice_row ok getOk p retry dup st =
              appendFrom ok p retry (invoiceStr p) st (.guardCheck (invoiceStr p) :: tr0) := by
          by_cases hd : dup = true
          · by_cases hg : getOk = true
            · have hm : invoiceStr p ∉ st.sheetIds := fun hm => h2 ⟨hd, hg, hm⟩
              exact ⟨[.sheetGet], by simp [append_invoice_row, h0, h1', hd, hg, hm]⟩
            · have hg' : getOk = false := by
                cases hx : getOk
                · rfl
                · exact absurd hx hg
              exact ⟨[.sheetGet], by simp [append_invoice_row, h0, h1', hd, hg']⟩
          · have hd' : dup = false := by
              cases hx : dup
              · rfl
              · exact absurd hx hd
            exact ⟨[], by simp [append_invoice_row, h0, h1', hd']⟩
        obtain ⟨tr0, hred⟩ := hred
        rw [hred]
        refine ⟨fun key hk => ?_, fun _ => appendFrom_head ok p retry (invoiceStr p) st _ tr0⟩
        rcases appendFrom_guards ok p retry (invoiceStr p) st _ key hk with hk' | hk'
        · exact Or.inl hk'
        · exact Or.inr (Or.inr hk')

/-- Witness for C3: a fresh delivery of identifier `INV-3` through a reliable
sink writes exactly the guard `INV-3`, and the run both satisfies the
guard-after-append property and opens with the guard check. -/
theorem guard_only_after_acknowledged_append_witness :
    ("INV-3" ∈ (append_invoice_row (fun _ => true) true [("invoice_number", PyVal.str "INV-3")]
        3 false ⟨[], [], []⟩).2.1.guards) ∧
    ("INV-3" ∈ (⟨[], [], []⟩ : SheetsState).guards ∨
      invoiceStr [("invoice_number", PyVal.str "INV-3")] ∈
        (⟨[], [], []⟩ : SheetsState).sheetIds ∨
      Ev.extAppend (buildRow [("invoice_number", PyVal.str "INV-3")]) true ∈
        (append_invoice_row (fun _ => true) true [("invoice_number", PyVal.str "INV-3")]
          3 false ⟨[], [], []⟩).2.2) ∧
    (append_invoice_row (fun _ => true) true [("invoice_number", PyVal.str "INV-3")]
        3 false ⟨[], [], []⟩).2.2.head? =
      some (.guardCheck (invoiceStr [("invoice_number", PyVal.str "INV-3")])) :=
  ⟨by decide,
    (guard_only_after_acknowledged_append (fun _ => true) true
        [("invoice_number", PyVal.str "INV-3")] 3 false ⟨[], [], []⟩).1 "INV-3" (by decide),
    (guard_only_after_acknowledged_append (fun _ => true) true
        [("invoice_number", PyVal.str "INV-3")] 3 false ⟨[], [], []⟩).2 (by decide)⟩

/-! ## C1 — delivery deduplication -/

/-- Counterexample to C1 as stated: because the guard check, the external
append and the guard write are separate unlocked operations, the schedule
that runs both guard checks before either append lets two concurrent
deliveries of the same non-empty identifier both append.  Both deliveries run
to completion (no pending steps) and two `appendRow` calls are observed, so
"at most one appendRow call regardless of concurrency" fails. -/
theorem exactly_once_interleaving_counterexample :
    runSched ⟨false, 0⟩ deliverySteps deliverySteps [true, false, true, true, false, false]
        = (⟨true, 2⟩, [], []) ∧
    ¬ ((runSched ⟨false, 0⟩ deliverySteps deliverySteps
        [true, false, true, true, false, false]).1.appends ≤ 1) := by
  decide

theorem already_after_mark (s : String) (hs : s ≠ "") (st : SheetsState) :
    already_appended s (mark_appended s st) = true := by
  simp [already_appended, mark_appended, hs]

/-- C1 amended: for two deliveries of the same non-empty invoice identifier
run sequentially (one completes before the other starts, in either order,
which the symmetric quantification over the two records covers), through a
reliable external sink, exactly one `appendRow` call is observed across both;
the later delivery returns `False` and makes no append attempt. -/
theorem exactly_once_sequential (g1 g2 : Bool) (p1 p2 : PyDict) (r1 r2 : Nat)
    (st : SheetsState)
    (hid : invoiceStr p2 = invoiceStr p1) (hne : invoiceStr p1 ≠ "")
    (h0 : already_appended (invoiceStr p1) st = false) :
    ((append_invoice_row (fun _ => true) g1 p1 r1 false st).2.2 ++
      (append_invoice_row (fun _ => true) g2 p2 r2 false
        (append_invoice_row (fun _ => true) g1 p1 r1 false st).2.1).2.2).countP Ev.isExt = 1 ∧
    (append_invoice_row (fun _ => true) g2 p2 r2 false
        (append_invoice_row (fun _ => true) g1 p1 r1 false st).2.1).1 = .ok false ∧
    (append_invoice_row (fun _ => true) g2 p2 r2 false
        (append_invoice_row (fun _ => true) g1 p1 r1 false st).2.1).2.2.countP Ev.isExt
      = 0 := by
  have hc1 : append_invoice_row (fun _ => true) g1 p1 r1 false st =
      (.ok true,
        mark_appended (invoiceStr p1)
          { st with rows := buildRow p1 :: st.rows,
                    sheetIds := invoiceStr p1 :: st.sheetIds },
        [.guardCheck (invoiceStr p1), .extAppend (buildRow p1) true,
          .guardWrite (invoiceStr p1)]) := by
    simp [append_invoice_row, hne, h0, appendFrom,
      attemptRun_first_ok (fun _ => true) (buildRow p1) r1 rfl]
  set st1 := (append_invoice_row (fun _ => true) g1 p1 r1 false st).2.1 with hst1
  have h1 : already_appended (invoiceStr p2) st1 = true := by
    rw [hst1, hc1, hid]
    exact already_after_mark (invoiceStr p1) hne _
  have hne2 : invoiceStr p2 ≠ "" := by rw [hid]; exact hne
  have hc2 : append_invoice_row (fun _ => true) g2 p2 r2 false st1 =
      (.ok false, st1, [.guardCheck (invoiceStr p2)]) := by
    simp [append_invoice_row, hne2, h1]
  rw [hc2]
  refine ⟨?_, rfl, by simp [Ev.isExt]⟩
  rw [hc1]
  simp [List.countP_cons, Ev.isExt]

/-- Witness for C1 amended: two documents both carrying identifier `A`,
delivered one after the other into an initially empty guard directory. -/
theorem exactly_once_sequential_witness :
    invoiceStr [("invoice_number", PyVal.str "A")] = invoiceStr [("invoice_number", PyVal.str "A")] ∧
    invoiceStr [("invoice_number", PyVal.str "A")] ≠ "" ∧
    already_appended (invoiceStr [("invoice_number", PyVal.str "A")]) ⟨[], [], []⟩ = false ∧
    (((append_invoice_row (fun _ => true) true [("invoice_number", PyVal.str "A")] 3 false
        ⟨[], [], []⟩).2.2 ++
      (append_invoice_row (fun _ => true) true [("invoice_number", PyVal.str "A")] 3 false
        (append_invoice_row (fun _ => true) true [("invoice_number", PyVal.str "A")] 3 false
          ⟨[], [], []⟩).2.1).2.2).countP Ev.isExt = 1 ∧
    (append_invoice_row (fun _ => true) true [("invoice_number", PyVal.str "A")] 3 false
        (append_invoice_row (fun _ => true) true [("invoice_number", PyVal.str "A")] 3 false
          ⟨[], [], []⟩).2.1).1 = .ok false ∧
    (append_invoice_row (fun _ => true) true [("invoice_number", PyVal.str "A")] 3 false
        (append_invoice_row (fun _ => true) true [("invoice_number", PyVal.str "A")] 3 false
          ⟨[], [], []⟩).2.1).2.2.countP Ev.isExt = 0) :=
  ⟨rfl, by decide, by decide,
    exactly_once_sequential true true [("invoice_number", PyVal.str "A")]
      [("invoice_number", PyVal.str "A")] 3 3 ⟨[], [], []⟩ rfl (by decide) (by decide)⟩

/-! ## C7 — the appended row -/

/-- A string that ends in a decimal point followed by exactly two digits:
the shape of a value "formatted to 2 decimal places". -/
def twoDecShape (s : String) : Prop :=
  ∃ pre a b, s.data = pre ++ ['.', a, b] ∧ a.isDigit = true ∧ b.isDigit = true

theorem digitChar_isDigit : ∀ n < 10, (Nat.digitChar n).isDigit = true := by decide

theorem formatTwoDec_twoDecShape (q : ℚ) : twoDecShape (formatTwoDec q) := by
  refine ⟨((if roundHalfEven (q * 100) < 0 then "-" else "") ++
      toString ((roundHalfEven (q * 100)).natAbs / 100)).data,
    Nat.digitChar ((roundHalfEven (q * 100)).natAbs % 100 / 10),
    Nat.digitChar ((roundHalfEven (q * 100)).natAbs % 10), ?_, ?_, ?_⟩
  · show (formatTwoDec q).data = _
    rw [formatTwoDec]
    simp only [String.data_append]
    simp
  · exact digitChar_isDigit _ (by omega)
  · exact digitChar_isDigit _ (by omega)

theorem pyOr_ne_none (a b : PyVal) (hb : b ≠ PyVal.none) : pyOr a b ≠ PyVal.none := by
  by_cases h : a.truthy = true
  · rw [pyOr, if_pos h]
    intro hc
    rw [hc] at h
    simp [PyVal.truthy] at h
  · rw [pyOr, if_neg h]
    exact hb

/-- `_normalize_total` on a non-`None` value whose cleaned string parses:
the two-decimal formatting of the parsed value. -/
theorem normalize_total_parse (t : PyVal) (q : ℚ)
    (hq : pyFloat (cleanMoney (pyStrip t.pyStr)) = some q) (ht : t ≠ PyVal.none) :
    _normalize_total t = formatTwoDec q := by
  have hstr : _normalize_total t = _normalize_total_str t.pyStr := by
    cases t with
    | none => exact absurd rfl ht
    | str s => rfl
    | num x => rfl
  rw [hstr]
  unfold _normalize_total_str
  rw [hq]

/-- The event trace of `appendFrom`: the inherited prefix, the append
attempts, and — on success with a non-empty identifier — the guard write. -/
theorem appendFrom_trace (ok : Nat → Bool) (p : PyDict) (retry : Nat)
    (inv : String) (st : SheetsState) (tr : List Ev) :
    (appendFrom ok p retry inv st tr).2.2 =
      tr ++ (attemptRun ok (buildRow p) retry).2.2 ++
        (if (attemptRun ok (buildRow p) retry).1 = true then
          (if inv = "" then [] else [.guardWrite inv]) else []) := by
  by_cases hs : (attemptRun ok (buildRow p) retry).1 = true
  · simp [appendFrom, hs]
  · have hs' : (attemptRun ok (buildRow p) retry).1 = false := by
      cases hx : (attemptRun ok (buildRow p) retry).1
      · rfl
      · exact absurd hx hs
    simp [appendFrom, hs']

/-- Counterexample to C7 as stated: a parsed record with no total field at
all (as `process_file` produces when money normalization fails) is delivered
with an empty fourth column, which is not formatted to two decimal places. -/
theorem row_two_decimals_counterexample :
    Ev.extAppend (buildRow [("invoice_number", PyVal.str "X")]) true ∈
      (append_invoice_row (fun _ => true) true [("invoice_number", PyVal.str "X")] 3 false
        ⟨[], [], []⟩).2.2 ∧
    (buildRow [("invoice_number", PyVal.str "X")]).get? 3 = some (.str "") ∧
    ¬ twoDecShape "" := by
  refine ⟨by decide, by decide, ?_⟩
  rintro ⟨pre, a, b, hdata, -, -⟩
  have : ([] : List Char).length = (pre ++ ['.', a, b]).length := by rw [← hdata]
  simp at this

/-- C7 amended: every row handed to the external append is exactly
`[invoiceId, date, vendor, normalizedTotal, currency, textSnippet]` built
from the record, with six columns, a snippet of at most 500 characters, and
a fourth column formatted to two decimal places whenever the cleaned total
parses as a number (otherwise it is the cleaned raw string, empty when the
total is absent). -/
theorem row_layout (ok : Nat → Bool) (getOk : Bool) (p : PyDict) (retry : Nat)
    (dup : Bool) (st : SheetsState) :
    (∀ r b, Ev.extAppend r b ∈ (append_invoice_row ok getOk p retry dup st).2.2 →
      r = [.str (invoiceStr p),
            pyOr (dictGet p "date") (pyOr (dictGet p "invoice_date") (.str "")),
            pyOr (dictGet p "vendor")
              (pyOr (dictGet p "supplier") (pyOr (dictGet p "seller") (.str ""))),
            .str (_normalize_total
              (pyOr (dictGet p "total")
                (pyOr (dictGet p "grand_total") (pyOr (dictGet p "amount") (.str ""))))),
            pyOr (dictGet p "currency") (.str ""),
            .str (String.mk ((pyOr (dictGet p "raw_text") (.str "")).pyStr.data.take 500))]) ∧
    (buildRow p).length = 6 ∧
    (∃ s, (buildRow p).get? 5 = some (.str s) ∧ s.length ≤ 500) ∧
    (∀ q, pyFloat (cleanMoney (pyStrip
          (pyOr (dictGet p "total")
            (pyOr (dictGet p "grand_total") (pyOr (dictGet p "amount") (.str "")))).pyStr))
        = some q →
      (buildRow p).get? 3 = some (.str (formatTwoDec q)) ∧ twoDecShape (formatTwoDec q)) := by
  have hval : pyOr (dictGet p "total")
      (pyOr (dictGet p "grand_total") (pyOr (dictGet p "amount") (.str ""))) ≠ .none :=
    pyOr_ne_none _ _ (pyOr_ne_none _ _ (pyOr_ne_none _ _ (by intro h; cases h)))
  have hrow : ∀ tr0 inv st0 r b,
      Ev.extAppend r b ∈ (appendFrom ok p retry inv st0 tr0).2.2 →
      (∀ e ∈ tr0, e.isExt = false) → r = buildRow p := by
    intro tr0 inv st0 r b hmem htr
    rw [appendFrom_trace] at hmem
    rcases List.mem_append.mp hmem with hm | hm
    · rcases List.mem_append.mp hm with hm1 | hm1
      · exact absurd (htr _ hm1) (by simp [Ev.isExt])
      · obtain ⟨bb, hbb⟩ := attemptRun_mem_ext ok (buildRow p) retry _ hm1
        simp only [Ev.extAppend.injEq] at hbb
        exact hbb.1
    · by_cases hs : (attemptRun ok (buildRow p) retry).1 = true <;>
        by_cases hi : inv = "" <;> simp [hs, hi] at hm
  refine ⟨?_, rfl, ⟨_, rfl, ?_⟩, fun q hq => ⟨?_, formatTwoDec_twoDecShape q⟩⟩
  · intro r b hr
    have hb : r = buildRow p := by
      by_cases h0 : invoiceStr p = ""
      · have hred : append_invoice_row ok getOk p retry dup st =
            appendFrom ok p retry "" st [] := by simp [append_invoice_row, h0]
        rw [hred] at hr
        exact hrow [] "" st r b hr (by decide)
      · by_cases h1 : already_appended (invoiceStr p) st = true
        · have hred : append_invoice_row ok getOk p retry dup st =
              (.ok false, st, [.guardCheck (invoiceStr p)]) := by
            simp [append_invoice_row, h0, h1]
          rw [hred] at hr
          simp at hr
        · have h1' : already_appended (invoiceStr p) st = false := by
            cases hx : already_appended (invoiceStr p) st
            · rfl
            · exact absurd hx h1
          by_cases h2 : dup = true ∧ getOk = true ∧ invoiceStr p ∈ st.sheetIds
          · have hred : append_invoice_row ok getOk p retry dup st =
                (.ok false, mark_appended (invoiceStr p) st,
                  [.guardCheck (invoiceStr p), .sheetGet, .guardWrite (invoiceStr p)]) := by
              obtain ⟨hd, hg, hm⟩ := h2
              simp [append_invoice_row, h0, h1, hd, hg, hm]
            rw [hred] at hr
            simp at hr
          · have hred : ∃ tr0 : List Ev, (∀ e ∈ tr0, e.isExt = false) ∧
                append_invoice_row ok getOk p retry dup st =
                  appendFrom ok p retry (invoiceStr p) st
                    (.guardCheck (invoiceStr p) :: tr0) := by
              by_cases hd : dup = true
              · by_cases hg : getOk = true
                · have hm : invoiceStr p ∉ st.sheetIds := fun hm => h2 ⟨hd, hg, hm⟩
                  exact ⟨[.sheetGet], by decide,
                    by simp [append_invoice_row, h0, h1', hd, hg, hm]⟩
                · have hg' : getOk = false := by
                    cases hx : getOk
                    · rfl
                    · exact absurd hx hg
                  exact ⟨[.sheetGet], by decide,
                    by simp [append_invoice_row, h0, h1', hd, hg']⟩
              · have hd' : dup = false := by
                  cases hx : dup
                  · rfl
                  · exact absurd hx hd
                exact ⟨[], by decide,
                  by simp [append_invoice_row, h0, h1', hd']⟩
            obtain ⟨tr0, htr0, hred⟩ := hred
            rw [hred] at hr
            refine hrow (.guardCheck (invoiceStr p) :: tr0) (invoiceStr p) st r b hr ?_
            intro e he
            rcases List.mem_cons.mp he with he | he
            · simp [he, Ev.isExt]
            · exact htr0 e he
    exact hb.trans rfl
  · rw [stringMk_length, List.length_take]
    exact min_le_left _ _
  · have h4 : (buildRow p).get? 3 = some (.str (_normalize_total
        (pyOr (dictGet p "total")
          (pyOr (dictGet p "grand_total") (pyOr (dictGet p "amount") (.str "")))))) := rfl
    rw [h4, normalize_total_parse _ q hq hval]

/-- Witness for C7 amended: a record with identifier `W` and no total is
appended as the explicit six-column row, and a record whose total is `"100"`
gets a two-decimal fourth column. -/
theorem row_layout_witness :
    buildRow [("invoice_number", PyVal.str "W")] =
      [.str "W", .str "", .str "", .str "", .str "", .str ""] ∧
    ((buildRow [("invoice_number", PyVal.str "W"), ("total", PyVal.str "100")]).get? 3 =
        some (.str (formatTwoDec ((1 : ℚ) * (digitsToNat ['1', '0', '0'] : ℚ)))) ∧
      twoDecShape (formatTwoDec ((1 : ℚ) * (digitsToNat ['1', '0', '0'] : ℚ)))) :=
  ⟨(row_layout (fun _ => true) true [("invoice_number", PyVal.str "W")] 3 false
      ⟨[], [], []⟩).1 (buildRow [("invoice_number", PyVal.str "W")]) true (by decide),
    (row_layout (fun _ => true) true
      [("invoice_number", PyVal.str "W"), ("total", PyVal.str "100")] 3 false
      ⟨[], [], []⟩).2.2.2 ((1 : ℚ) * (digitsToNat ['1', '0', '0'] : ℚ)) rfl⟩

/-! ## C5 — idempotent OCR, and C10 — unsupported extensions -/

theorem parseAndDeliver_ocrTexts (caps : Caps) (f : MediaFile) (text : String)
    (st : PState) : (parseAndDeliver caps f text st).1.ocrTexts = st.ocrTexts := by
  simp only [parseAndDeliver]
  split
  · rfl
  · split
    · rfl
    · split <;> rfl

theorem parseAndDeliver_events (caps : Caps) (f : MediaFile) (text : String)
    (st : PState) : ∀ e ∈ (parseAndDeliver caps f text st).2,
      e.isWriteOcr = false ∧ e.isOcrCall = false := by
  intro e he
  simp only [parseAndDeliver] at he
  split at he
  · simp at he
  · split at he
    · rcases List.mem_singleton.mp he with rfl
      exact ⟨rfl, rfl⟩
    · split at he
      · rcases List.mem_cons.mp he with he | he
        · subst he; exact ⟨rfl, rfl⟩
        · obtain ⟨a, -, ha⟩ := List.mem_map.mp he
          rw [← ha]; exact ⟨rfl, rfl⟩
      · rcases List.mem_cons.mp he with he | he
        · subst he; exact ⟨rfl, rfl⟩
        · rcases List.mem_append.mp he with he | he
          · obtain ⟨a, -, ha⟩ := List.mem_map.mp he
            rw [← ha]; exact ⟨rfl, rfl⟩
          · rcases List.mem_singleton.mp he with rfl
            exact ⟨rfl, rfl⟩

/-- C5: OCR is idempotent.  If an OCR Artifact already exists for a file's
stem, `process_file` returns at once, touching nothing and performing no OCR
call; and a fresh run on an image file followed by a second run on the
resulting state writes the OCR Artifact exactly once in total, the second
run being a no-op with no OCR call. -/
theorem ocr_idempotent :
    (∀ caps f st, is_processed f st = true → process_file caps f st = (st, [])) ∧
    (∀ caps f st, is_processed f st = false → pyLower f.suffix ∈ IMAGE_EXTS →
      process_file caps f (process_file caps f st).1 = ((process_file caps f st).1, []) ∧
      ((process_file caps f st).2 ++
        (process_file caps f (process_file caps f st).1).2).countP PEv.isWriteOcr = 1) := by
  have part1 : ∀ caps f st, is_processed f st = true → process_file caps f st = (st, []) := by
    intro caps f st h
    simp [process_file, h]
  refine ⟨part1, fun caps f st h himg => ?_⟩
  have hrun : process_file caps f st =
      (move_to_processed f (parseAndDeliver caps f (caps.ocrImage f)
          (write_text_file f (caps.ocrImage f) st)).1,
        .ocrCall :: .writeOcr f.stem ::
          (parseAndDeliver caps f (caps.ocrImage f)
            (write_text_file f (caps.ocrImage f) st)).2 ++
          [.archive (archiveName f
            (parseAndDeliver caps f (caps.ocrImage f)
              (write_text_file f (caps.ocrImage f) st)).1.processedNames
            (parseAndDeliver caps f (caps.ocrImage f)
              (write_text_file f (caps.ocrImage f) st)).1.now)]) := by
    simp [process_file, h, himg]
  have hP : is_processed f (process_file caps f st).1 = true := by
    rw [hrun]
    show ((move_to_processed f _).ocrTexts.lookup f.stem).isSome = true
    rw [show ∀ st0 : PState, (move_to_processed f st0).ocrTexts = st0.ocrTexts
        from fun _ => rfl,
      parseAndDeliver_ocrTexts]
    show (((f.stem, caps.ocrImage f) :: st.ocrTexts).lookup f.stem).isSome = true
    simp [List.lookup]
  have hsecond := part1 caps f (process_file caps f st).1 hP
  refine ⟨hsecond, ?_⟩
  rw [hsecond, hrun]
  simp only [List.countP_append, List.countP_cons, List.countP_nil]
  have hzero : (parseAndDeliver caps f (caps.ocrImage f)
      (write_text_file f (caps.ocrImage f) st)).2.countP PEv.isWriteOcr = 0 :=
    List.countP_eq_zero.mpr fun e he => by
      simp [(parseAndDeliver_events caps f (caps.ocrImage f)
        (write_text_file f (caps.ocrImage f) st) e he).1]
  simp [hzero, PEv.isWriteOcr]

/-- Witness for C5: a fresh image document with no prior artifacts. -/
theorem ocr_idempotent_witness :
    (is_processed c6File ⟨[c6File], ["x"], [("other", "t")], [], [], [], ⟨[], [], []⟩, 7⟩ = true →
      process_file c6Caps c6File ⟨[c6File], ["x"], [("other", "t")], [], [], [], ⟨[], [], []⟩, 7⟩ =
        (⟨[c6File], ["x"], [("other", "t")], [], [], [], ⟨[], [], []⟩, 7⟩, [])) ∧
    (is_processed c6File c6State = false ∧ pyLower c6File.suffix ∈ IMAGE_EXTS ∧
      (process_file c6Caps c6File (process_file c6Caps c6File c6State).1 =
        ((process_file c6Caps c6File c6State).1, []) ∧
      ((process_file c6Caps c6File c6State).2 ++
        (process_file c6Caps c6File (process_file c6Caps c6File c6State).1).2).countP
          PEv.isWriteOcr = 1)) :=
  ⟨ocr_idempotent.1 c6Caps c6File ⟨[c6File], ["x"], [("other", "t")], [], [], [], ⟨[], [], []⟩, 7⟩,
    by decide, by decide,
    ocr_idempotent.2 c6Caps c6File c6State (by decide) (by decide)⟩

/-- C10: a file whose lower-cased suffix is neither a recognized image
extension nor `.pdf` leaves the whole state untouched — no OCR Artifact,
no Parsed Record, no Error Artifact, no archive move, and no observable
call — and, still sitting in the drop directory, it is enumerated again by
every future scan. -/
theorem unsupported_extension_skipped (caps : Caps) (f : MediaFile) (st : PState)
    (h1 : pyLower f.suffix ∉ IMAGE_EXTS) (h2 : pyLower f.suffix ∉ PDF_EXTS) :
    process_file caps f st = (st, []) ∧ (f ∈ st.media → f ∈ list_media_files st) := by
  constructor
  · by_cases hp : is_processed f st = true
    · simp [process_file, hp]
    · simp [process_file, hp, h1, h2]
  · intro hf
    rw [list_media_files]
    exact List.mem_mergeSort.mpr hf

/-- Witness for C10: a text file `notes.txt` sitting in the drop directory. -/
theorem unsupported_extension_skipped_witness :
    pyLower (MediaFile.mk "notes" ".txt" 4).suffix ∉ IMAGE_EXTS ∧
    pyLower (MediaFile.mk "notes" ".txt" 4).suffix ∉ PDF_EXTS ∧
    (process_file c6Caps (MediaFile.mk "notes" ".txt" 4)
        ⟨[MediaFile.mk "notes" ".txt" 4], [], [], [], [], [], ⟨[], [], []⟩, 9⟩ =
      (⟨[MediaFile.mk "notes" ".txt" 4], [], [], [], [], [], ⟨[], [], []⟩, 9⟩, []) ∧
      (MediaFile.mk "notes" ".txt" 4 ∈
          (⟨[MediaFile.mk "notes" ".txt" 4], [], [], [], [], [], ⟨[], [], []⟩, 9⟩ : PState).media →
        MediaFile.mk "notes" ".txt" 4 ∈
          list_media_files ⟨[MediaFile.mk "notes" ".txt" 4], [], [], [], [], [], ⟨[], [], []⟩, 9⟩)) :=
  ⟨by decide, by decide,
    unsupported_extension_skipped c6Caps (MediaFile.mk "notes" ".txt" 4)
      ⟨[MediaFile.mk "notes" ".txt" 4], [], [], [], [], [], ⟨[], [], []⟩, 9⟩
      (by decide) (by decide)⟩

/-! ## C2 — failure handling -/

/-- Capabilities for a run whose external append always fails. -/
def c2Caps : Caps :=
  { ocrImage := fun _ => "T"
    ocrPdf := fun _ => .ok ""
    extract := fun _ => .ok [("invoice_number", .str "INV9")]
    appendOk := fun _ => false
    getOk := true
    extractAvailable := true
    sheetsAvailable := true }

def c2File : MediaFile := ⟨"doc2", ".jpg", 0⟩

def c2State : PState := ⟨[c2File], [], [], [], [], [], ⟨[], [], []⟩, 42⟩

/-- Counterexample to C2 as stated: for a document whose delivery stage
raises an unretried error (four failed external append attempts are
observed), `process_file` writes no Error Artifact and nevertheless archives
the document — the exception is absorbed at lines 252–264, a failed-append
record is saved instead, and the move to the processed directory still
runs. -/
theorem delivery_failure_archives_counterexample :
    (process_file c2Caps c2File c2State).1.errFiles = [] ∧
    (process_file c2Caps c2File c2State).1.processedNames = ["doc2.jpg"] ∧
    (process_file c2Caps c2File c2State).1.media = [] ∧
    (process_file c2Caps c2File c2State).1.failedAppends = ["doc2"] ∧
    (process_file c2Caps c2File c2State).2.countP PEv.isExtDeliver = 4 := by
  decide

/-- C2 amended: an Error Artifact (stage, exception and stack-trace
equivalent as one `<stem>.err.txt` file) is written and the document left in
the drop location exactly for failures that escape to the top-level handler —
such as a PDF-conversion failure during OCR; a delivery failure, by contrast,
is absorbed: the pipeline saves a failed-append record for the document,
writes no Error Artifact, and archives the document anyway. -/
theorem error_artifact_on_failure :
    (∀ caps f st, is_processed f st = false → pyLower f.suffix ∈ PDF_EXTS →
      caps.ocrPdf f = .error () →
      process_file caps f st =
        ({ st with errFiles := f.stem :: st.errFiles }, [.ocrCall, .writeErr f.stem])) ∧
    (∀ caps f st, is_processed f st = false → pyLower f.suffix ∈ IMAGE_EXTS →
      caps.extractAvailable = true → caps.sheetsAvailable = true →
      (∀ k, caps.appendOk k = false) →
      already_appended (invoiceStr (buildParsed f (caps.ocrImage f)
        (extractedFields caps (caps.ocrImage f)))) st.sheets = false →
      (process_file caps f st).1.errFiles = st.errFiles ∧
      (process_file caps f st).1.media = st.media.erase f ∧
      (process_file caps f st).1.processedNames =
        archiveName f st.processedNames st.now :: st.processedNames ∧
      f.stem ∈ (process_file caps f st).1.failedAppends) := by
  constructor
  · intro caps f st hp hpdf hocr
    have hsfx : pyLower f.suffix = ".pdf" := by simpa [PDF_EXTS] using hpdf
    have himg : pyLower f.suffix ∉ IMAGE_EXTS := by rw [hsfx]; decide
    simp [process_file, hp, himg, hpdf, hocr]
  · intro caps f st hp himg hea hsa hfail hguard
    have hok : caps.appendOk = fun _ => false := funext hfail
    have happ := append_invoice_row_allFail caps.getOk
        (buildParsed f (caps.ocrImage f) (extractedFields caps (caps.ocrImage f))) 3
        st.sheets hguard
    refine ⟨?_, ?_, ?_, ?_⟩ <;>
      simp [process_file, hp, himg, parseAndDeliver, hea, hsa, hok, happ,
        move_to_processed, write_text_file]

/-- Witness for C2 amended: a PDF whose rasterization fails, and an image
document whose delivery always fails. -/
theorem error_artifact_on_failure_witness :
    (is_processed (MediaFile.mk "bill" ".pdf" 1) c2State = false ∧
      pyLower (MediaFile.mk "bill" ".pdf" 1).suffix ∈ PDF_EXTS ∧
      (fun _ : MediaFile => (Except.error () : Except Unit String)) (MediaFile.mk "bill" ".pdf" 1)
        = .error () ∧
      process_file { c2Caps with ocrPdf := fun _ => .error () } (MediaFile.mk "bill" ".pdf" 1)
          c2State =
        ({ c2State with errFiles := ["bill"] }, [.ocrCall, .writeErr "bill"])) ∧
    (is_processed c2File c2State = false ∧ pyLower c2File.suffix ∈ IMAGE_EXTS ∧
      ((process_file c2Caps c2File c2State).1.errFiles = c2State.errFiles ∧
        (process_file c2Caps c2File c2State).1.media = c2State.media.erase c2File ∧
        (process_file c2Caps c2File c2State).1.processedNames =
          archiveName c2File c2State.processedNames c2State.now ::
            c2State.processedNames ∧
        c2File.stem ∈ (process_file c2Caps c2File c2State).1.failedAppends)) :=
  ⟨⟨by decide, by decide, rfl,
      error_artifact_on_failure.1 { c2Caps with ocrPdf := fun _ => .error () }
        (MediaFile.mk "bill" ".pdf" 1) c2State (by decide) (by decide) rfl⟩,
    by decide, by decide,
    error_artifact_on_failure.2 c2Caps c2File c2State (by decide) (by decide) rfl rfl
      (fun _ => rfl) (by decide)⟩

end InvoiceMVP
